import Mathlib

/-!
# Verification of the pymupdf-api core logic

A shallow embedding of `src/app.py`: the document/page/block data model, the
classifier `is_native_pdf`, the page-selection parser `parse_pages`, the two
extractors `extract_text` / `extract_blocks`, and the `/extract` and `/info`
request handlers, together with theorems settling the specification claims.

Python floats (scores, ratios, coordinates) are modelled as exact rationals;
Python's `int(...)` conversion, string `strip`, `split` and truthiness are
modelled explicitly.  A Python exception is modelled as `none` / `Option`,
matching the single generic `except Exception` handler in each route.
-/

namespace PymupdfApi

/-- A content block as returned by `page.get_text("blocks")`: the tuple
`(x0, y0, x1, y1, text, block_no, block_type)`; `block_type = 0` means text. -/
structure ContentBlock where
  x0 : ℚ
  y0 : ℚ
  x1 : ℚ
  y1 : ℚ
  text : String
  blockNo : ℕ
  blockType : ℕ
  deriving DecidableEq, Repr

/-- A page of the opened document: `page.get_text()`, `page.get_text("blocks")`,
`page.rect.width/height` and `len(page.get_images())`. -/
structure Page where
  text : String
  blocks : List ContentBlock
  width : ℚ
  height : ℚ
  imagesCount : ℕ
  deriving DecidableEq, Repr, Inhabited

/-- An opened document (`fitz.open` result): its pages and its metadata map. -/
structure Document where
  pages : List Page
  metadata : List (String × String)
  deriving DecidableEq, Repr

/-! ## Python string primitives

The parser below works on Python strings through `strip`, `split`, `in` and
`int(...)`.  These are modelled by structurally recursive functions over the
character list of the string, so that concrete runs evaluate. -/

/-- The whitespace characters Python's `str.strip()` removes (the ASCII ones;
exotic unicode whitespace is not modelled). -/
def isPyWhitespace (c : Char) : Bool :=
  c == ' ' || c == '\t' || c == '\n' || c == '\x0d' || c == '\x0b' || c == '\x0c'

/-- Python's `s.strip()`: drop whitespace from both ends. -/
def pyStrip (s : String) : String :=
  String.mk (((s.toList.dropWhile isPyWhitespace).reverse.dropWhile isPyWhitespace).reverse)

/-- Python's `s.split(sep)` for a one-character separator: empty string gives
`[""]`, adjacent separators give empty fields. -/
def pySplit (sep : Char) (s : String) : List String :=
  (s.toList.splitOn sep).map (fun l => String.mk l)

/-- Python's `c in s` for a one-character needle. -/
def pyContainsChar (c : Char) (s : String) : Bool := s.toList.contains c

/-- A non-empty all-digit character list read as a base-10 natural. -/
def digitsToNat? (l : List Char) : Option ℕ :=
  if l ≠ [] ∧ l.all Char.isDigit then
    some (l.foldl (fun acc c => acc * 10 + (c.toNat - 48)) 0)
  else none

/-- Python's `int(s)`: strip surrounding whitespace, optional sign, then a
non-empty digit string; anything else raises `ValueError` (modelled `none`;
underscore digit grouping is not modelled). -/
def pyInt? (s : String) : Option ℤ :=
  match (pyStrip s).toList with
  | '-' :: rest => (digitsToNat? rest).map (fun n => -(n : ℤ))
  | '+' :: rest => (digitsToNat? rest).map (fun n => (n : ℤ))
  | t => (digitsToNat? t).map (fun n => (n : ℤ))

/-! ## DocumentClassifier: `is_native_pdf` (src/app.py lines 59-85) -/

/-- `is_native_pdf(doc)` translated clause by clause: the loop accumulates
`(pages_with_text, total_text_length)` over stripped page texts, then the
decision cascade returns `(score, label)`. -/
def is_native_pdf (doc : Document) : ℚ × String :=
  let total_pages := doc.pages.length
  let stats := doc.pages.foldl
    (fun (acc : ℕ × ℕ) page =>
      let text := pyStrip page.text
      let acc1 := if text.length > 50 then (acc.1 + 1, acc.2) else acc
      (acc1.1, acc1.2 + text.length))
    (0, 0)
  let pages_with_text := stats.1
  let total_text_length := stats.2
  if total_pages = 0 then (0, "empty")
  else
    let text_ratio_val : ℚ := (pages_with_text : ℚ) / (total_pages : ℚ)
    let avg_text_per_page : ℚ := (total_text_length : ℚ) / (total_pages : ℚ)
    if text_ratio_val > 0.8 ∧ avg_text_per_page > 100 then (1.0, "native")
    else if text_ratio_val > 0.3 ∨ avg_text_per_page > 50 then (text_ratio_val, "mixed")
    else (0.0, "scanned")

/-! Spec-side formulation of the classifier (spec §4.2), written from the
decision table's words, to be compared with `is_native_pdf`. -/

/-- Spec: total number of pages. -/
def totalPages (doc : Document) : ℕ := doc.pages.length

/-- Spec step 1: per-page text, trimmed, its length measured. -/
def trimmedLen (p : Page) : ℕ := (pyStrip p.text).length

/-- Spec step 2: a page "has text" iff its trimmed length strictly exceeds 50. -/
def pageHasText (p : Page) : Bool := 50 < trimmedLen p

/-- Spec: number of pages that "have text". -/
def pagesWithText (doc : Document) : ℕ := (doc.pages.filter pageHasText).length

/-- Spec: total of the trimmed lengths over all pages. -/
def totalTextLength (doc : Document) : ℕ := (doc.pages.map trimmedLen).sum

/-- Spec step 3: `textRatio = pagesWithText / totalPages`. -/
def textRatioVal (doc : Document) : ℚ := (pagesWithText doc : ℚ) / (totalPages doc : ℚ)

/-- Spec step 3: `avgTextPerPage = totalTextLength / totalPages`. -/
def avgTextPerPage (doc : Document) : ℚ := (totalTextLength doc : ℚ) / (totalPages doc : ℚ)

/-- Spec step 4, the decision table, first matching rule wins, all comparisons
strict. -/
def classifySpec (doc : Document) : ℚ × String :=
  if totalPages doc = 0 then (0, "empty")
  else if 4/5 < textRatioVal doc ∧ 100 < avgTextPerPage doc then (1, "native")
  else if 3/10 < textRatioVal doc ∨ 50 < avgTextPerPage doc then (textRatioVal doc, "mixed")
  else (0, "scanned")

/-! ## PageRangeParser: `parse_pages` (src/app.py lines 210-227)

The Python `set` accumulator is modelled as a duplicate-free list: `set.add`
inserts unless present, `set.update(range(...))` folds `add`, and the final
`sorted(pages)` is an insertion sort.  Only the set of elements matters for
the output, since it is sorted at the end. -/

/-- `pages.add(x)`. -/
def pyAdd (pages : List ℤ) (x : ℤ) : List ℤ :=
  if x ∈ pages then pages else pages ++ [x]

/-- `pages.update(xs)`. -/
def pyUpdate (pages : List ℤ) (xs : List ℤ) : List ℤ := xs.foldl pyAdd pages

/-- Python's `range(start, stop)` as a list of integers. -/
def rangeList (start stop : ℤ) : List ℤ :=
  (List.range (stop - start).toNat).map (fun n : ℕ => start + (n : ℤ))

/-- Python's `sorted(pages)`. -/
def pySorted (pages : List ℤ) : List ℤ := List.insertionSort (· ≤ ·) pages

/-- One iteration of the `for part in parts` loop of `parse_pages`: strip the
token; a token containing `-` must split into exactly two `int`s `a`, `b` and
contributes the clamped range `[max(0, a-1), min(total_pages, b))`; a plain
token must be an `int` `a` and contributes `a-1` only if
`0 ≤ a-1 < total_pages`.  `none` models the `ValueError` a malformed token
raises. -/
def parsePart (total_pages : ℕ) (pages : List ℤ) (part0 : String) : Option (List ℤ) :=
  let part := pyStrip part0
  if pyContainsChar '-' part then
    match pySplit '-' part with
    | [s, e] =>
      match pyInt? s, pyInt? e with
      | some a, some b =>
          let start := max 0 (a - 1)
          let stop := min (total_pages : ℤ) b
          some (pyUpdate pages (rangeList start stop))
      | _, _ => none
    | _ => none
  else
    match pyInt? part with
    | some a =>
        let page_num := a - 1
        if 0 ≤ page_num ∧ page_num < (total_pages : ℤ) then some (pyAdd pages page_num)
        else some pages
    | none => none

/-- `parse_pages(pages_param, total_pages)`: split on commas, fold the token
loop over an initially empty set, and return `sorted(pages)`; `none` models the
exception raised by the first malformed token. -/
def parse_pages (pages_param : String) (total_pages : ℕ) : Option (List ℤ) :=
  let parts := pySplit ',' pages_param
  (parts.foldlM (parsePart total_pages) []).map pySorted

/-! ## TextExtractor: `extract_text` (src/app.py lines 230-237) -/

/-- The `texts` list built by the loop of `extract_text`: `page.get_text()`
verbatim for each selected index, in selection order.  `none` models the
`IndexError` an out-of-range index would raise (never reached from the
handlers). -/
def getTexts (doc : Document) : List ℕ → Option (List String)
  | [] => some []
  | page_num :: rest =>
    match doc.pages[page_num]? with
    | some page => (getTexts doc rest).map (fun texts => page.text :: texts)
    | none => none

/-- `extract_text(doc, pages)`: collect the per-page texts and join them with
a blank line (`"\n\n".join(texts)`). -/
def extract_text (doc : Document) (pages : List ℕ) : Option String :=
  (getTexts doc pages).map (fun texts => String.intercalate "\n\n" texts)

/-! ## BlockExtractor: `extract_blocks` (src/app.py lines 240-276) -/

/-- A block of the `pages_detail` output: stripped text plus the block's
bounding box copied field by field. -/
structure OutBlock where
  text : String
  x0 : ℚ
  y0 : ℚ
  x1 : ℚ
  y1 : ℚ
  deriving DecidableEq, Repr, Inhabited

/-- One entry of `pages_detail`: 1-based page number and its kept blocks. -/
structure PageDetail where
  page : ℕ
  blocks : List OutBlock
  deriving DecidableEq, Repr, Inhabited

/-- The dictionary `extract_blocks` returns. -/
structure BlocksResult where
  text : String
  pages_detail : List PageDetail
  deriving DecidableEq, Repr, Inhabited

/-- The filter of the inner loop: `block[6] == 0` and stripped `block[4]`
non-empty. -/
def keepBlock (b : ContentBlock) : Bool :=
  b.blockType == 0 && !(pyStrip b.text == "")

/-- The dictionary appended to `page_blocks`: stripped text, bounding box
fields copied unmodified. -/
def emitBlock (b : ContentBlock) : OutBlock :=
  ⟨pyStrip b.text, b.x0, b.y0, b.x1, b.y1⟩

/-- One iteration of the `for page_num in pages` loop of `extract_blocks`:
the page's joined kept-block text and its `pages_detail` entry. -/
def pageEntry (page_num : ℕ) (page : Page) : String × PageDetail :=
  let kept := page.blocks.filter keepBlock
  (String.intercalate "\n" (kept.map (fun b => pyStrip b.text)),
   PageDetail.mk (page_num + 1) (kept.map emitBlock))

/-- The `(all_text, pages_detail)` pairs accumulated by the loop of
`extract_blocks`, in selection order. -/
def getEntries (doc : Document) : List ℕ → Option (List (String × PageDetail))
  | [] => some []
  | page_num :: rest =>
    match doc.pages[page_num]? with
    | some page => (getEntries doc rest).map (fun es => pageEntry page_num page :: es)
    | none => none

/-- `extract_blocks(doc, pages)`: per selected page, keep text blocks with
non-empty stripped text in original order, join their texts with `\n` per page
and with `\n\n` across pages, and record per-page details. -/
def extract_blocks (doc : Document) (pages : List ℕ) : Option BlocksResult :=
  (getEntries doc pages).map (fun es =>
    BlocksResult.mk (String.intercalate "\n\n" (es.map Prod.fst)) (es.map Prod.snd))

/-! ## The HTTP handlers `extract` and `info` (src/app.py lines 88-207)

A request is modelled by what the handler observes of it: whether usable PDF
bytes were supplied, what document `fitz.open` yields on them (`none` models
an open failure), and the raw `pages` / `format` parameters from form and
query.  The outcome records the HTTP status, the JSON payload on success, and
whether the document was opened and closed, which is what the resource-release
claims are about. -/

/-- Python `a or b` on optional strings: `None` and `""` are falsy. -/
def pyOrStr (a b : Option String) : Option String :=
  match a with
  | some s => if s == "" then b else some s
  | none => b

/-- Python truthiness of an optional string. -/
def strTruthy (a : Option String) : Bool :=
  match a with
  | some s => !(s == "")
  | none => false

/-- Round-half-to-even of a rational to an integer (Python's `round`,
modelled on exact rationals). -/
def roundHalfEven (q : ℚ) : ℤ :=
  let f := q.floor
  if q - (f : ℚ) < 1/2 then f
  else if 1/2 < q - (f : ℚ) then f + 1
  else if f % 2 = 0 then f else f + 1

/-- Python's `round(q, 2)` on exact rationals. -/
def pyRound2 (q : ℚ) : ℚ := (roundHalfEven (q * 100) : ℚ) / 100

/-- What the `/extract` and `/info` handlers observe of a request. -/
structure Request where
  hasPdfBytes : Bool
  doc : Option Document
  pagesForm : Option String
  pagesArgs : Option String
  formatForm : Option String
  formatArgs : Option String
  deriving Repr

/-- `output_format = request.form.get("format") or request.args.get("format")
or "text"` (line 112). -/
def output_format (req : Request) : String :=
  match pyOrStr req.formatForm req.formatArgs with
  | some s => if s == "" then "text" else s
  | none => "text"

/-- The `pages` parameter after the `or` chain of line 111. -/
def pagesParam (req : Request) : Option String :=
  pyOrStr req.pagesForm req.pagesArgs

/-- The JSON body of a successful `/extract` response (lines 134-144). -/
structure ExtractPayload where
  text : String
  pages_count : ℕ
  pages_extracted : ℕ
  characters_count : ℕ
  pdf_type : String
  native_score : ℚ
  needs_ocr : Bool
  pages_detail : Option (List PageDetail)
  deriving DecidableEq, Repr, Inhabited

/-- Outcome of one `/extract` request: status code, payload when successful,
and whether the `fitz` document was opened and closed. -/
structure ExtractOutcome where
  status : ℕ
  payload : Option ExtractPayload
  opened : Bool
  closed : Bool
  deriving DecidableEq, Repr

/-- Lines 119-121: `pages_to_extract = list(range(total_pages))`, replaced by
`parse_pages(pages_param, total_pages)` when the `pages` parameter is truthy.
The `ℤ` indices the parser produces are read as list indices (they are always
in `[0, total_pages)`, see the parser theorems). -/
def resolvedPages (req : Request) (doc : Document) : Option (List ℕ) :=
  match pagesParam req with
  | some s =>
    if s == "" then some (List.range doc.pages.length)
    else (parse_pages s doc.pages.length).map (List.map Int.toNat)
  | none => some (List.range doc.pages.length)

/-- Lines 127-130: dispatch on the format, returning the extracted text and,
in blocks mode, the per-page detail.  Any format other than the exact string
"blocks" takes the text branch. -/
def extractResult (doc : Document) (fmt : String) (pages : List ℕ) :
    Option (String × Option (List PageDetail)) :=
  if fmt == "blocks" then
    (extract_blocks doc pages).map (fun r => (r.text, some r.pages_detail))
  else
    (extract_text doc pages).map (fun t => (t, none))

/-- The `/extract` handler (lines 88-150), step by step: missing bytes give a
400; `fitz.open` failure is caught by the generic handler as a 500 with the
document never opened; a `parse_pages` failure is caught as a 500 with the
document opened but never closed; otherwise classification and extraction run,
the document is closed, and the 200 payload is assembled. -/
def extract (req : Request) : ExtractOutcome :=
  if !req.hasPdfBytes then ⟨400, none, false, false⟩
  else
    match req.doc with
    | none => ⟨500, none, false, false⟩
    | some doc =>
      match resolvedPages req doc with
      | none => ⟨500, none, true, false⟩
      | some pages_to_extract =>
        match extractResult doc (output_format req) pages_to_extract with
        | none => ⟨500, none, true, false⟩
        | some res =>
          ⟨200,
           some ⟨res.1, doc.pages.length, pages_to_extract.length, res.1.length,
                 (is_native_pdf doc).2, pyRound2 (is_native_pdf doc).1,
                 (is_native_pdf doc).2 == "scanned",
                 if output_format req == "blocks" then res.2 else none⟩,
           true, true⟩

/-- One entry of the `/info` per-page list (lines 174-181). -/
structure PageInfo where
  page : ℕ
  width : ℚ
  height : ℚ
  has_text : Bool
  has_images : Bool
  deriving DecidableEq, Repr, Inhabited

/-- The JSON body of a successful `/info` response (lines 185-201). -/
structure InfoPayload where
  title : String
  author : String
  subject : String
  creator : String
  producer : String
  creation_date : String
  modification_date : String
  pages_count : ℕ
  pages : List PageInfo
  pdf_type : String
  native_score : ℚ
  needs_ocr : Bool
  deriving DecidableEq, Repr, Inhabited

/-- Outcome of one `/info` request. -/
structure InfoOutcome where
  status : ℕ
  payload : Option InfoPayload
  opened : Bool
  closed : Bool
  deriving DecidableEq, Repr

/-- `metadata.get(key, "")`. -/
def metaGet (doc : Document) (key : String) : String :=
  match doc.metadata.lookup key with
  | some v => v
  | none => ""

/-- The `/info` handler (lines 153-207): missing bytes give a 400; an open
failure a 500; otherwise metadata, classification and the per-page loop run,
the document is closed and the 200 payload is assembled. -/
def info (req : Request) : InfoOutcome :=
  if !req.hasPdfBytes then ⟨400, none, false, false⟩
  else
    match req.doc with
    | none => ⟨500, none, false, false⟩
    | some doc =>
      let cls := is_native_pdf doc
      let pages_info := (List.range doc.pages.length).filterMap (fun i =>
        (doc.pages[i]?).map (fun p =>
          PageInfo.mk (i + 1) p.width p.height ((pyStrip p.text).length > 50)
            (p.imagesCount > 0)))
      ⟨200,
       some ⟨metaGet doc "title", metaGet doc "author", metaGet doc "subject",
             metaGet doc "creator", metaGet doc "producer",
             metaGet doc "creationDate", metaGet doc "modDate",
             pages_info.length, pages_info, cls.2, pyRound2 cls.1,
             cls.2 == "scanned"⟩,
       true, true⟩

/-! ## Concrete sample data used to instantiate the theorems -/

/-- A page whose stripped text has 101 characters. -/
def pageLong : Page := ⟨String.mk (List.replicate 101 'a'), [], 612, 792, 0⟩

/-- A page whose stripped text has 60 characters. -/
def pageMid : Page := ⟨String.mk (List.replicate 60 'b'), [], 612, 792, 0⟩

/-- A page with no text and one image. -/
def pageBlank : Page := ⟨"", [], 612, 792, 1⟩

/-- A one-page document with plenty of text. -/
def docNative : Document := ⟨[pageLong], [("title", "t")]⟩

/-- Five pages, four with 60 characters: text ratio exactly 4/5, average 48. -/
def docBoundary : Document := ⟨[pageMid, pageMid, pageMid, pageMid, pageBlank], []⟩

/-- A one-page image-only document: classified "scanned". -/
def docScan : Document := ⟨[pageBlank], []⟩

/-- Three pages with texts "A", "", "B". -/
def docTriple : Document :=
  ⟨[⟨"A", [], 612, 792, 0⟩, ⟨"", [], 612, 792, 0⟩, ⟨"B", [], 612, 792, 0⟩], []⟩

/-- A text block with surrounding whitespace to strip. -/
def blockKeep : ContentBlock := ⟨1, 2, 3, 4, " kept text ", 0, 0⟩

/-- An image block. -/
def blockImage : ContentBlock := ⟨5, 6, 7, 8, "img", 1, 1⟩

/-- A text block whose stripped text is empty. -/
def blockWhite : ContentBlock := ⟨9, 10, 11, 12, "   ", 2, 0⟩

/-- A page carrying all three block kinds. -/
def pageWithBlocks : Page := ⟨"ignored", [blockImage, blockKeep, blockWhite], 612, 792, 0⟩

/-- A one-page document for the block-extraction claims. -/
def docBlocks : Document := ⟨[pageWithBlocks], []⟩

/-- The blocks-mode result on `docBlocks`, page 0. -/
def resBlocks : BlocksResult := (extract_blocks docBlocks [0]).getD default

/-- A request whose `pages` parameter has a malformed token. -/
def reqBadPages : Request := ⟨true, some docNative, some "abc", none, none, none⟩

/-- A plain request on the scanned document. -/
def reqScan : Request := ⟨true, some docScan, none, none, none, none⟩

/-- A request with the unrecognized format "xyz". -/
def reqXyz : Request := ⟨true, some docNative, none, none, some "xyz", none⟩

/-- A request with the empty-string format. -/
def reqEmptyFmt : Request := ⟨true, some docNative, none, none, some "", none⟩

/-- A request selecting all three pages of `docTriple` explicitly. -/
def reqFull : Request := ⟨true, some docTriple, some "1-3", none, none, none⟩

/-- The same request without a `pages` parameter. -/
def reqNoPages : Request := ⟨true, some docTriple, none, none, none, none⟩

/-- The `/extract` payload of a request, defaulted when absent. -/
def extractPayloadAt (req : Request) : ExtractPayload := ((extract req).payload).getD default

/-- The `/info` payload of a request, defaulted when absent. -/
def infoPayloadAt (req : Request) : InfoPayload := ((info req).payload).getD default

/-- The accumulator loop of `is_native_pdf`, named so it can be characterised. -/
def statsStep (acc : ℕ × ℕ) (page : Page) : ℕ × ℕ :=
  let text := pyStrip page.text
  let acc1 := if text.length > 50 then (acc.1 + 1, acc.2) else acc
  (acc1.1, acc1.2 + text.length)

lemma is_native_pdf_eq_statsStep (doc : Document) :
    is_native_pdf doc =
      (let total_pages := doc.pages.length
       let stats := doc.pages.foldl statsStep (0, 0)
       if total_pages = 0 then ((0 : ℚ), "empty")
       else
         let text_ratio_val : ℚ := (stats.1 : ℚ) / (total_pages : ℚ)
         let avg : ℚ := (stats.2 : ℚ) / (total_pages : ℚ)
         if text_ratio_val > 0.8 ∧ avg > 100 then (1.0, "native")
         else if text_ratio_val > 0.3 ∨ avg > 50 then (text_ratio_val, "mixed")
         else (0.0, "scanned")) := rfl

lemma foldl_statsStep (l : List Page) (a b : ℕ) :
    l.foldl statsStep (a, b) =
      (a + (l.filter pageHasText).length, b + (l.map trimmedLen).sum) := by
  induction l generalizing a b with
  | nil => simp
  | cons p t ih =>
    by_cases hp : (pyStrip p.text).length > 50
    · have hb : pageHasText p = true := by
        simp [pageHasText, trimmedLen]; omega
      simp only [List.foldl_cons, statsStep, if_pos hp, ih, List.filter_cons, hb,
        List.map_cons, List.sum_cons, List.length_cons, trimmedLen]
      rw [Prod.mk.injEq]
      refine ⟨by simp; omega, by omega⟩
    · have hb : ¬ pageHasText p = true := by
        simp [pageHasText, trimmedLen]; omega
      simp only [List.foldl_cons, statsStep, if_neg hp, ih, List.filter_cons,
        if_neg hb, List.map_cons, List.sum_cons, trimmedLen]
      rw [Prod.mk.injEq]
      refine ⟨by omega, by omega⟩

lemma is_native_pdf_eq_classifySpec (doc : Document) :
    is_native_pdf doc = classifySpec doc := by
  rw [is_native_pdf_eq_statsStep]
  simp only [foldl_statsStep, Nat.zero_add, classifySpec, textRatioVal,
    avgTextPerPage, pagesWithText, totalTextLength, totalPages]
  norm_num

/-- C1: for every document, `is_native_pdf` follows the spec's decision table
exactly: per-page text is trimmed and measured, a page has text iff its trimmed
length strictly exceeds 50, textRatioVal and avgTextPerPage are the stated
quotients over trimmed lengths, and the first matching rule of the table wins,
with all comparisons strict. -/
theorem claim_C1_classifier_matches_spec_table (doc : Document) :
    is_native_pdf doc = classifySpec doc :=
  is_native_pdf_eq_classifySpec doc

/-- C4: a non-empty document in which every page's trimmed text length strictly
exceeds 100 characters is labelled "native" with score 1.0; and at the
boundary, a document whose textRatioVal is exactly 0.8 or whose avgTextPerPage is
exactly 100 is not labelled "native" (the comparisons are strictly
greater-than). -/
theorem claim_C4_all_long_pages_native_and_strict_boundary :
    (∀ doc : Document, doc.pages ≠ [] →
      (∀ p ∈ doc.pages, 100 < (pyStrip p.text).length) →
      is_native_pdf doc = (1, "native")) ∧
    (∀ doc : Document, textRatioVal doc = 4/5 ∨ avgTextPerPage doc = 100 →
      (is_native_pdf doc).2 ≠ "native") := by
  constructor
  · intro doc hne hlong
    rw [is_native_pdf_eq_classifySpec]
    have hn : 0 < totalPages doc := by
      simpa [totalPages, List.length_pos] using hne
    have hall : ∀ p ∈ doc.pages, pageHasText p = true := by
      intro p hp
      have := hlong p hp
      simp [pageHasText, trimmedLen]
      omega
    have hfilled : pagesWithText doc = totalPages doc := by
      simp [pagesWithText, totalPages, List.filter_length_eq_length.mpr hall]
    have hsum : 100 * totalPages doc < totalTextLength doc := by
      have : ∀ x ∈ doc.pages.map trimmedLen, 101 ≤ x := by
        intro x hx
        obtain ⟨p, hp, rfl⟩ := List.mem_map.mp hx
        have := hlong p hp
        simp [trimmedLen]
        omega
      calc 100 * totalPages doc < 101 * totalPages doc := by
            have := hn; omega
        _ = (doc.pages.map trimmedLen).length • 101 := by
            simp [totalPages, smul_eq_mul, Nat.mul_comm]
        _ ≤ totalTextLength doc := by
            simpa [totalTextLength] using List.card_nsmul_le_sum _ 101 this
    have h1 : textRatioVal doc = 1 := by
      rw [textRatioVal, hfilled, div_self]
      exact_mod_cast hn.ne.symm
    have h2 : (100 : ℚ) < avgTextPerPage doc := by
      rw [avgTextPerPage, lt_div_iff₀ (by exact_mod_cast hn)]
      exact_mod_cast by simpa [Nat.mul_comm] using hsum
    rw [classifySpec, if_neg (by omega), if_pos ⟨by rw [h1]; norm_num, h2⟩]
  · intro doc h
    rw [is_native_pdf_eq_classifySpec, classifySpec]
    rcases h with h | h
    · split
      · simp
      · rw [if_neg (by rw [h]; rintro ⟨h1, -⟩; exact lt_irrefl _ h1)]
        split <;> simp
    · split
      · simp
      · rw [if_neg (by rw [h]; rintro ⟨-, h2⟩; exact lt_irrefl _ h2)]
        split <;> simp

/-- C4 witness: the one-page 101-character document is "native" with score 1,
and the five-page document with text ratio exactly 4/5 is not "native". -/
theorem claim_C4_witness :
    is_native_pdf docNative = (1, "native") ∧ (is_native_pdf docBoundary).2 ≠ "native" := by
  constructor
  · exact claim_C4_all_long_pages_native_and_strict_boundary.1 docNative (by decide) (by decide)
  · apply claim_C4_all_long_pages_native_and_strict_boundary.2 docBoundary
    left
    have h1 : pagesWithText docBoundary = 4 := by decide
    have h2 : totalPages docBoundary = 5 := by decide
    rw [textRatioVal, h1, h2]
    norm_num

/-- C9: in every successful `/extract` and `/info` response, `needs_ocr` is
true iff the classification label (`pdf_type`) is exactly "scanned"; it is
false for "native", "mixed" and "empty". -/
theorem claim_C9_needs_ocr_iff_scanned :
    (∀ (req : Request) (p : ExtractPayload), (extract req).payload = some p →
      (p.needs_ocr = true ↔ p.pdf_type = "scanned")) ∧
    (∀ (req : Request) (p : InfoPayload), (info req).payload = some p →
      (p.needs_ocr = true ↔ p.pdf_type = "scanned")) := by
  constructor
  · intro req p h
    by_cases hb : req.hasPdfBytes
    · cases hdoc : req.doc with
      | none => simp [extract, hb, hdoc] at h
      | some doc =>
        cases hpg : resolvedPages req doc with
        | none => simp [extract, hb, hdoc, hpg] at h
        | some pages =>
          cases hr : extractResult doc (output_format req) pages with
          | none => simp [extract, hb, hdoc, hpg, hr] at h
          | some res =>
            simp only [extract, hb, hdoc, hpg, hr, Bool.not_true, Bool.false_eq_true,
              if_false, Option.some.injEq] at h
            subst h
            simp [beq_iff_eq]
    · simp [extract, hb] at h
  · intro req p h
    by_cases hb : req.hasPdfBytes
    · cases hdoc : req.doc with
      | none => simp [info, hb, hdoc] at h
      | some doc =>
        simp only [info, hb, hdoc, Bool.not_true, Bool.false_eq_true, if_false,
          Option.some.injEq] at h
        subst h
        simp [beq_iff_eq]
    · simp [info, hb] at h

/-- C9 witness: on the scanned one-page document, both handlers' payloads
satisfy the equivalence. -/
theorem claim_C9_witness :
    ((extractPayloadAt reqScan).needs_ocr = true ↔
      (extractPayloadAt reqScan).pdf_type = "scanned") ∧
    ((infoPayloadAt reqScan).needs_ocr = true ↔
      (infoPayloadAt reqScan).pdf_type = "scanned") :=
  ⟨claim_C9_needs_ocr_iff_scanned.1 reqScan (extractPayloadAt reqScan) rfl,
   claim_C9_needs_ocr_iff_scanned.2 reqScan (infoPayloadAt reqScan) rfl⟩

/-- C2 counterexample: on a request carrying a valid one-page document and the
malformed pages expression "abc", the failure is raised only after the
document has been opened (`opened = true`), and it is reported as the generic
HTTP 500 failure with no explicit client-error payload — not as a client
error detected before opening. -/
theorem claim_C2_counterexample :
    (extract reqBadPages).status = 500 ∧ (extract reqBadPages).opened = true ∧
      (extract reqBadPages).payload = none := by
  refine ⟨rfl, rfl, rfl⟩

/-- C2 amended: a malformed (non-numeric) pages token makes `parse_pages`
raise only after the document has been opened; the route's generic exception
handler reports it as HTTP 500 with `success: false` (a generic internal
failure, not a crash and not a client error). -/
theorem claim_C2_amended_malformed_pages_is_500_after_open
    (req : Request) (doc : Document) (s : String)
    (hb : req.hasPdfBytes = true) (hdoc : req.doc = some doc)
    (hs : pagesParam req = some s) (hne : (s == "") = false)
    (hparse : parse_pages s doc.pages.length = none) :
    extract req = ⟨500, none, true, false⟩ := by
  have hpg : resolvedPages req doc = none := by
    simp [resolvedPages, hs, hne, hparse]
  simp [extract, hb, hdoc, hpg]

/-- C2 witness: the amended statement instantiated on the "abc" request. -/
theorem claim_C2_witness : extract reqBadPages = ⟨500, none, true, false⟩ :=
  claim_C2_amended_malformed_pages_is_500_after_open reqBadPages docNative "abc"
    rfl rfl rfl (by decide) (by decide)

/-- C3 counterexample: on the same malformed-pages request the document is
opened but never closed, so the document resource is not released on every
exit path. -/
theorem claim_C3_counterexample :
    (extract reqBadPages).opened = true ∧ (extract reqBadPages).closed = false := by
  refine ⟨rfl, rfl⟩

/-- C3 amended: the handlers close the document exactly on the successful
path: for both `/extract` and `/info`, the document is closed iff the response
is the 200 success, so every error path entered after opening (for instance a
pages-parse failure) leaves the document unclosed. -/
theorem claim_C3_amended_closed_iff_status_200 :
    (∀ req : Request, (extract req).closed = true ↔ (extract req).status = 200) ∧
    (∀ req : Request, (info req).closed = true ↔ (info req).status = 200) := by
  constructor
  · intro req
    by_cases hb : req.hasPdfBytes
    · cases hdoc : req.doc with
      | none => simp [extract, hb, hdoc]
      | some doc =>
        cases hpg : resolvedPages req doc with
        | none => simp [extract, hb, hdoc, hpg]
        | some pages =>
          cases hr : extractResult doc (output_format req) pages with
          | none => simp [extract, hb, hdoc, hpg, hr]
          | some res => simp [extract, hb, hdoc, hpg, hr]
    · simp [extract, hb]
  · intro req
    by_cases hb : req.hasPdfBytes
    · cases hdoc : req.doc with
      | none => simp [info, hb, hdoc]
      | some doc => simp [info, hb, hdoc]
    · simp [info, hb]

/-! ## Parser lemmas -/

lemma mem_pyAdd (l : List ℤ) (y x : ℤ) : x ∈ pyAdd l y ↔ x ∈ l ∨ x = y := by
  unfold pyAdd
  split
  next h =>
    constructor
    · exact Or.inl
    · rintro (hx | rfl)
      · exact hx
      · exact h
  next h => simp

lemma pyAdd_nodup (l : List ℤ) (y : ℤ) (h : l.Nodup) : (pyAdd l y).Nodup := by
  unfold pyAdd
  split
  · exact h
  next hy => simp [List.nodup_append, h, hy]

lemma mem_pyUpdate (xs : List ℤ) : ∀ (l : List ℤ) (x : ℤ),
    x ∈ pyUpdate l xs ↔ x ∈ l ∨ x ∈ xs := by
  induction xs with
  | nil => simp [pyUpdate]
  | cons y ys ih =>
    intro l x
    have hstep : pyUpdate l (y :: ys) = pyUpdate (pyAdd l y) ys := rfl
    rw [hstep, ih (pyAdd l y) x, mem_pyAdd]
    simp [List.mem_cons]
    tauto

lemma pyUpdate_nodup (xs : List ℤ) : ∀ l : List ℤ, l.Nodup → (pyUpdate l xs).Nodup := by
  induction xs with
  | nil => intro l h; exact h
  | cons y ys ih =>
    intro l h
    exact ih (pyAdd l y) (pyAdd_nodup l y h)

lemma mem_rangeList (s t x : ℤ) : x ∈ rangeList s t ↔ s ≤ x ∧ x < t := by
  unfold rangeList
  simp only [List.mem_map, List.mem_range]
  constructor
  · rintro ⟨n, hn, rfl⟩
    omega
  · rintro ⟨h1, h2⟩
    exact ⟨(x - s).toNat, by omega, by omega⟩

lemma parsePart_single (total : ℕ) (acc : List ℤ) (part0 : String) (a : ℤ)
    (hdash : pyContainsChar '-' (pyStrip part0) = false)
    (hint : pyInt? (pyStrip part0) = some a) :
    parsePart total acc part0 =
      some (if 0 ≤ a - 1 ∧ a - 1 < (total : ℤ) then pyAdd acc (a - 1) else acc) := by
  simp only [parsePart]
  rw [hdash]
  simp only [Bool.false_eq_true, if_false, hint]
  by_cases hc : 0 ≤ a - 1 ∧ a - 1 < (total : ℤ)
  · rw [if_pos hc, if_pos hc]
  · rw [if_neg hc, if_neg hc]

lemma parsePart_range (total : ℕ) (acc : List ℤ) (part0 s e : String) (a b : ℤ)
    (hdash : pyContainsChar '-' (pyStrip part0) = true)
    (hsplit : pySplit '-' (pyStrip part0) = [s, e])
    (ha : pyInt? s = some a) (hb : pyInt? e = some b) :
    parsePart total acc part0 =
      some (pyUpdate acc (rangeList (max 0 (a - 1)) (min (total : ℤ) b))) := by
  simp only [parsePart]
  rw [hdash, hsplit]
  simp only [if_true, ha, hb]

lemma parsePart_inv (total : ℕ) (acc out : List ℤ) (part : String)
    (h : parsePart total acc part = some out)
    (hmem : ∀ x ∈ acc, 0 ≤ x ∧ x < (total : ℤ)) (hnd : acc.Nodup) :
    (∀ x ∈ out, 0 ≤ x ∧ x < (total : ℤ)) ∧ out.Nodup := by
  simp only [parsePart] at h
  split at h
  · split at h
    next s e heq =>
      cases ha : pyInt? s with
      | none => rw [ha] at h; simp at h
      | some a =>
        cases hb : pyInt? e with
        | none => rw [ha, hb] at h; simp at h
        | some b =>
          rw [ha, hb] at h
          cases h
          refine ⟨?_, pyUpdate_nodup _ _ hnd⟩
          intro x hx
          rcases (mem_pyUpdate _ _ _).mp hx with hx | hx
          · exact hmem x hx
          · have := (mem_rangeList _ _ _).mp hx
            constructor
            · have : (0 : ℤ) ≤ max 0 (a - 1) := le_max_left 0 (a - 1)
              omega
            · have : min (total : ℤ) b ≤ (total : ℤ) := min_le_left _ _
              omega
    next => simp at h
  · split at h
    next a heqa =>
      split at h
      next hc =>
        cases h
        refine ⟨?_, pyAdd_nodup _ _ hnd⟩
        intro x hx
        rcases (mem_pyAdd _ _ _).mp hx with hx | rfl
        · exact hmem x hx
        · exact hc
      next hc =>
        cases h
        exact ⟨hmem, hnd⟩
    next => simp at h

lemma foldlM_parsePart_inv (total : ℕ) (parts : List String) :
    ∀ (acc out : List ℤ),
      parts.foldlM (parsePart total) acc = some out →
      (∀ x ∈ acc, 0 ≤ x ∧ x < (total : ℤ)) → acc.Nodup →
      (∀ x ∈ out, 0 ≤ x ∧ x < (total : ℤ)) ∧ out.Nodup := by
  induction parts with
  | nil =>
    intro acc out h hm hn
    simp only [List.foldlM_nil] at h
    cases h
    exact ⟨hm, hn⟩
  | cons p rest ih =>
    intro acc out h hm hn
    rw [List.foldlM_cons] at h
    cases hp : parsePart total acc p with
    | none => rw [hp] at h; simp at h
    | some mid =>
      rw [hp] at h
      simp only [Option.bind_eq_bind, Option.some_bind] at h
      obtain ⟨hm', hn'⟩ := parsePart_inv total acc mid p hp hm hn
      exact ih mid out h hm' hn'

lemma parse_pages_sorted_bounded (expr : String) (total : ℕ) (l : List ℤ)
    (h : parse_pages expr total = some l) :
    l.Sorted (· < ·) ∧ ∀ i ∈ l, 0 ≤ i ∧ i < (total : ℤ) := by
  simp only [parse_pages] at h
  cases hf : (pySplit ',' expr).foldlM (parsePart total) [] with
  | none => rw [hf] at h; simp at h
  | some m =>
    rw [hf] at h
    simp only [Option.map_some'] at h
    cases h
    obtain ⟨hm, hn⟩ := foldlM_parsePart_inv total _ [] m hf (by simp) List.nodup_nil
    have hperm : List.Perm (pySorted m) m := List.perm_insertionSort (· ≤ ·) m
    have hsorted : (pySorted m).Sorted (· ≤ ·) := List.sorted_insertionSort (· ≤ ·) m
    have hnodup : (pySorted m).Nodup := hperm.nodup_iff.mpr hn
    refine ⟨hsorted.lt_of_le hnodup, ?_⟩
    intro i hi
    exact hm i (hperm.mem_iff.mp hi)

lemma pySplit_single (c : Char) (s : String) (h : pyContainsChar c s = false) :
    pySplit c s = [s] := by
  have hall : ∀ x ∈ s.toList, ¬((x == c) = true) := by
    intro x hx hxc
    rw [beq_iff_eq] at hxc
    subst hxc
    simp only [pyContainsChar] at h
    simp at h
    exact h hx
  unfold pySplit
  rw [show s.toList.splitOn c = s.toList.splitOnP (fun x => x == c) from rfl,
    List.splitOnP_eq_single _ _ hall]
  simp

lemma parse_pages_single_token (s : String) (total : ℕ) (a : ℤ)
    (hc : pyContainsChar ',' s = false)
    (hdash : pyContainsChar '-' (pyStrip s) = false)
    (hint : pyInt? (pyStrip s) = some a) :
    parse_pages s total = some (if 1 ≤ a ∧ a ≤ (total : ℤ) then [a - 1] else []) := by
  simp only [parse_pages]
  rw [pySplit_single ',' s hc]
  simp only [List.foldlM_cons, List.foldlM_nil]
  rw [parsePart_single total [] s a hdash hint]
  by_cases hca : 0 ≤ a - 1 ∧ a - 1 < (total : ℤ)
  · rw [if_pos hca, if_pos (show 1 ≤ a ∧ a ≤ (total : ℤ) by omega)]
    simp [pyAdd, pySorted]
  · rw [if_neg hca, if_neg (show ¬(1 ≤ a ∧ a ≤ (total : ℤ)) by omega)]
    simp [pySorted]

/-- C5: out-of-bounds page tokens never raise and are handled asymmetrically:
a single-number token contributes its 0-based index only when the 1-based
number lies in `[1, totalPages]` and is silently dropped otherwise, so
`parse("50", 10)` is the empty selection, while a range token is clamped at
both ends, so `parse("5-100", 10)` is exactly the 0-based indices 4 through 9
with no error. -/
theorem claim_C5_out_of_bounds_tokens :
    (∀ (s : String) (total : ℕ) (a : ℤ),
      pyContainsChar ',' s = false →
      pyContainsChar '-' (pyStrip s) = false →
      pyInt? (pyStrip s) = some a →
      parse_pages s total = some (if 1 ≤ a ∧ a ≤ (total : ℤ) then [a - 1] else [])) ∧
    parse_pages "50" 10 = some [] ∧
    parse_pages "5-100" 10 = some [4, 5, 6, 7, 8, 9] := by
  refine ⟨parse_pages_single_token, by decide, by decide⟩

/-- C5 witness: the single-token rule instantiated at an in-range and an
out-of-range token. -/
theorem claim_C5_witness :
    parse_pages "7" 10 = some [6] ∧ parse_pages "0" 10 = some [] := by
  constructor
  · have h := claim_C5_out_of_bounds_tokens.1 "7" 10 7 (by decide) (by decide) (by decide)
    rw [h, if_pos (by norm_num)]
    norm_num
  · have h := claim_C5_out_of_bounds_tokens.1 "0" 10 0 (by decide) (by decide) (by decide)
    rw [h, if_neg (by norm_num)]

/-- C6: for every expression accepted by the parser, the result is a
deduplicated strictly ascending sequence of 0-based indices inside
`[0, totalPages)`; and concretely, token order and multiplicity do not matter:
for every `n ≥ 3`, `parse("3,1,2", n)` and `parse("1-3", n)` are both
`[0, 1, 2]`. -/
theorem claim_C6_sorted_dedup_order_independent :
    (∀ (expr : String) (total : ℕ) (l : List ℤ), parse_pages expr total = some l →
      l.Sorted (· < ·) ∧ ∀ i ∈ l, 0 ≤ i ∧ i < (total : ℤ)) ∧
    (∀ n : ℕ, 3 ≤ n →
      parse_pages "3,1,2" n = some [0, 1, 2] ∧ parse_pages "1-3" n = some [0, 1, 2]) := by
  refine ⟨parse_pages_sorted_bounded, ?_⟩
  intro n hn
  constructor
  · have hsplit : pySplit ',' "3,1,2" = ["3", "1", "2"] := by decide
    have e1 : parsePart n [] "3" = some [2] := by
      rw [parsePart_single n [] "3" 3 (by decide) (by decide),
        if_pos (show (0:ℤ) ≤ 3 - 1 ∧ (3:ℤ) - 1 < (n : ℤ) by omega)]
      decide
    have e2 : parsePart n [2] "1" = some [2, 0] := by
      rw [parsePart_single n [2] "1" 1 (by decide) (by decide),
        if_pos (show (0:ℤ) ≤ 1 - 1 ∧ (1:ℤ) - 1 < (n : ℤ) by omega)]
      decide
    have e3 : parsePart n [2, 0] "2" = some [2, 0, 1] := by
      rw [parsePart_single n [2, 0] "2" 2 (by decide) (by decide),
        if_pos (show (0:ℤ) ≤ 2 - 1 ∧ (2:ℤ) - 1 < (n : ℤ) by omega)]
      decide
    simp only [parse_pages, hsplit, List.foldlM_cons, List.foldlM_nil, e1, e2, e3,
      Option.bind_eq_bind, Option.some_bind, Option.map_some']
    decide
  · have e := parsePart_range n [] "1-3" "1" "3" 1 3 (by decide) (by decide)
      (by decide) (by decide)
    have hmin : min (n : ℤ) 3 = 3 := by omega
    rw [hmin] at e
    have hupd : pyUpdate [] (rangeList (max 0 ((1:ℤ) - 1)) 3) = [0, 1, 2] := by decide
    rw [hupd] at e
    have hsplit : pySplit ',' "1-3" = ["1-3"] := by decide
    simp only [parse_pages, hsplit, List.foldlM_cons, List.foldlM_nil, e,
      Option.bind_eq_bind, Option.some_bind, Option.map_some']
    decide

/-- C6 witness: the general shape facts and the concrete equalities at
`n = 5`. -/
theorem claim_C6_witness :
    ([0, 1, 2] : List ℤ).Sorted (· < ·) ∧
    (∀ i ∈ ([0, 1, 2] : List ℤ), 0 ≤ i ∧ i < (5 : ℤ)) ∧
    parse_pages "3,1,2" 5 = some [0, 1, 2] ∧ parse_pages "1-3" 5 = some [0, 1, 2] := by
  have hc := claim_C6_sorted_dedup_order_independent.2 5 (by norm_num)
  have h1 := claim_C6_sorted_dedup_order_independent.1 "3,1,2" 5 [0, 1, 2] hc.1
  exact ⟨h1.1, h1.2, hc.1, hc.2⟩

/-! ## Extractor lemmas -/

lemma getTexts_eq (doc : Document) (pages : List ℕ)
    (h : ∀ i ∈ pages, i < doc.pages.length) :
    getTexts doc pages = some (pages.map (fun i => (doc.pages.getD i default).text)) := by
  induction pages with
  | nil => rfl
  | cons i rest ih =>
    have hi : i < doc.pages.length := h i (List.mem_cons_self i rest)
    have hget : doc.pages[i]? = some (doc.pages.getD i default) := by
      rw [List.getD_eq_getElem?_getD, List.getElem?_eq_getElem hi]
      simp
    simp only [getTexts, hget, ih (fun j hj => h j (List.mem_cons_of_mem i hj)),
      Option.map_some', List.map_cons]

lemma getEntries_forall₂ (doc : Document) :
    ∀ (pages : List ℕ) (es : List (String × PageDetail)),
      getEntries doc pages = some es →
      List.Forall₂ (fun i e => ∃ p, doc.pages[i]? = some p ∧ e = pageEntry i p) pages es := by
  intro pages
  induction pages with
  | nil =>
    intro es h
    cases h
    exact List.Forall₂.nil
  | cons i rest ih =>
    intro es h
    simp only [getEntries] at h
    cases hp : doc.pages[i]? with
    | none => rw [hp] at h; simp at h
    | some page =>
      rw [hp] at h
      cases hr : getEntries doc rest with
      | none => rw [hr] at h; simp at h
      | some tail =>
        rw [hr] at h
        simp only [Option.map_some'] at h
        cases h
        exact List.Forall₂.cons ⟨page, hp, rfl⟩ (ih tail hr)

lemma forall₂_mem_right {α β : Type} {r : α → β → Prop} :
    ∀ {l₁ : List α} {l₂ : List β}, List.Forall₂ r l₁ l₂ → ∀ b ∈ l₂, ∃ a ∈ l₁, r a b := by
  intro l₁ l₂ h
  induction h with
  | nil => intro b hb; simp at hb
  | cons hr ht ih =>
    intro b hb
    rcases List.mem_cons.mp hb with rfl | hb
    · exact ⟨_, List.mem_cons_self _ _, hr⟩
    · obtain ⟨a, ha, hab⟩ := ih b hb
      exact ⟨a, List.mem_cons_of_mem _ ha, hab⟩

/-- C8: blocks-mode extraction keeps, for each selected page, exactly the
blocks whose kind is text (`block[6] == 0`) and whose stripped text is
non-empty, in the engine-provided original order with bounding boxes copied
unmodified (`emitBlock`); consequently no emitted block has empty text or
comes from a non-text block. -/
theorem claim_C8_blocks_filter_preserve_bbox_order (doc : Document) (pages : List ℕ)
    (res : BlocksResult) (h : extract_blocks doc pages = some res) :
    List.Forall₂ (fun i pd => ∃ p, doc.pages[i]? = some p ∧
        pd = PageDetail.mk (i + 1) ((p.blocks.filter keepBlock).map emitBlock))
      pages res.pages_detail ∧
    ∀ pd ∈ res.pages_detail, ∀ ob ∈ pd.blocks,
      ob.text ≠ "" ∧ ∃ b, b.blockType = 0 ∧ ob = emitBlock b := by
  simp only [extract_blocks] at h
  cases hg : getEntries doc pages with
  | none => rw [hg] at h; simp at h
  | some es =>
    rw [hg] at h
    simp only [Option.map_some'] at h
    cases h
    have hall := getEntries_forall₂ doc pages es hg
    constructor
    · rw [List.forall₂_map_right_iff]
      refine hall.imp ?_
      rintro i e ⟨p, hp, rfl⟩
      exact ⟨p, hp, rfl⟩
    · intro pd hpd ob hob
      obtain ⟨e, he, rfl⟩ := List.mem_map.mp hpd
      obtain ⟨a, ha, p, hp, rfl⟩ := forall₂_mem_right hall e he
      simp only [pageEntry] at hob
      obtain ⟨b, hb, rfl⟩ := List.mem_map.mp hob
      obtain ⟨hbmem, hk⟩ := List.mem_filter.mp hb
      simp only [keepBlock, Bool.and_eq_true, beq_iff_eq, Bool.not_eq_eq_eq_not,
        Bool.not_true, beq_eq_false_iff_ne] at hk
      exact ⟨by simpa [emitBlock] using hk.2, b, hk.1, rfl⟩

/-- C8 witness: the block filter instantiated on the page holding a kept text
block, an image block and a whitespace-only text block. -/
theorem claim_C8_witness :
    List.Forall₂ (fun i pd => ∃ p, docBlocks.pages[i]? = some p ∧
        pd = PageDetail.mk (i + 1) ((p.blocks.filter keepBlock).map emitBlock))
      [0] resBlocks.pages_detail ∧
    ∀ pd ∈ resBlocks.pages_detail, ∀ ob ∈ pd.blocks,
      ob.text ≠ "" ∧ ∃ b, b.blockType = 0 ∧ ob = emitBlock b :=
  claim_C8_blocks_filter_preserve_bbox_order docBlocks [0] resBlocks rfl

/-- C7: text-mode extraction returns exactly the selected pages' verbatim
(untrimmed) texts in selection order joined with the two-newline separator,
empty pages contributing an empty segment; and an `/extract` request whose
pages expression denotes the full range `[0, totalPages)` behaves exactly like
the same request with no pages expression. -/
theorem claim_C7_text_join_verbatim_and_roundtrip :
    (∀ (doc : Document) (pages : List ℕ), (∀ i ∈ pages, i < doc.pages.length) →
      extract_text doc pages =
        some (String.intercalate "\n\n"
          (pages.map (fun i => (doc.pages.getD i default).text)))) ∧
    (∀ (req : Request) (doc : Document) (s : String),
      req.hasPdfBytes = true → req.doc = some doc →
      pagesParam req = some s → (s == "") = false →
      parse_pages s doc.pages.length =
        some ((List.range doc.pages.length).map (fun i : ℕ => (i : ℤ))) →
      extract req =
        extract ⟨req.hasPdfBytes, req.doc, none, none, req.formatForm, req.formatArgs⟩) := by
  constructor
  · intro doc pages h
    simp [extract_text, getTexts_eq doc pages h]
  · intro req doc s hb hdoc hs hne hparse
    have hmap : ((List.range doc.pages.length).map (fun i : ℕ => (i : ℤ))).map Int.toNat
        = List.range doc.pages.length := by
      rw [List.map_map]
      have hco : (Int.toNat ∘ fun i : ℕ => (i : ℤ)) = id := by
        funext i
        simp
      rw [hco, List.map_id]
    have h1 : resolvedPages req doc = some (List.range doc.pages.length) := by
      simp only [resolvedPages, hs, hne, hparse, Option.map_some', Bool.false_eq_true,
        if_false]
      rw [hmap]
    have h2 : resolvedPages ⟨true, some doc, none, none, req.formatForm,
        req.formatArgs⟩ doc = some (List.range doc.pages.length) := by
      simp [resolvedPages, pagesParam, pyOrStr]
    have hfmt : output_format ⟨true, some doc, none, none, req.formatForm,
        req.formatArgs⟩ = output_format req := rfl
    simp only [extract, hb, hdoc, h1, h2, hfmt]

/-- C7 witness: on the three-page document with texts "A", "", "B" the joined
text keeps the middle empty segment, and selecting "1-3" explicitly equals
omitting the pages parameter. -/
theorem claim_C7_witness :
    extract_text docTriple [0, 1, 2] = some "A\n\n\n\nB" ∧
    extract reqFull = extract reqNoPages := by
  constructor
  · have h := claim_C7_text_join_verbatim_and_roundtrip.1 docTriple [0, 1, 2] (by decide)
    rw [h]
    rfl
  · exact claim_C7_text_join_verbatim_and_roundtrip.2 reqFull docTriple "1-3"
      rfl rfl rfl (by decide) (by decide)

/-- C10: a `/extract` request whose effective format is any string other than
exactly "blocks" (unrecognized values like "xyz" and, through falsy defaults,
the empty string) is silently dispatched to text-mode extraction: it succeeds
with status 200 and `pages_detail = none`, with no error for the unrecognized
mode. -/
theorem claim_C10_non_blocks_format_text_mode (req : Request) (doc : Document)
    (pages : List ℕ) (t : String)
    (hb : req.hasPdfBytes = true) (hdoc : req.doc = some doc)
    (hfmt : output_format req ≠ "blocks")
    (hpg : resolvedPages req doc = some pages)
    (ht : extract_text doc pages = some t) :
    extract req = ⟨200, some ⟨t, doc.pages.length, pages.length, t.length,
      (is_native_pdf doc).2, pyRound2 (is_native_pdf doc).1,
      (is_native_pdf doc).2 == "scanned", none⟩, true, true⟩ := by
  have hfb : (output_format req == "blocks") = false := by
    rw [beq_eq_false_iff_ne]
    exact hfmt
  have hr : extractResult doc (output_format req) pages = some (t, none) := by
    simp [extractResult, hfb, ht]
  simp [extract, hb, hdoc, hpg, hr, hfb]

/-- C10 witness: requests with format "xyz" and with the empty-string format
both take the text branch with no detail and no error. -/
theorem claim_C10_witness :
    extract reqXyz = ⟨200, some ⟨(extract_text docNative [0]).getD default,
        1, 1, ((extract_text docNative [0]).getD default).length,
        (is_native_pdf docNative).2, pyRound2 (is_native_pdf docNative).1,
        (is_native_pdf docNative).2 == "scanned", none⟩, true, true⟩ ∧
    extract reqEmptyFmt = ⟨200, some ⟨(extract_text docNative [0]).getD default,
        1, 1, ((extract_text docNative [0]).getD default).length,
        (is_native_pdf docNative).2, pyRound2 (is_native_pdf docNative).1,
        (is_native_pdf docNative).2 == "scanned", none⟩, true, true⟩ := by
  constructor
  · exact claim_C10_non_blocks_format_text_mode reqXyz docNative [0]
      ((extract_text docNative [0]).getD default) rfl rfl (by decide) rfl rfl
  · exact claim_C10_non_blocks_format_text_mode reqEmptyFmt docNative [0]
      ((extract_text docNative [0]).getD default) rfl rfl (by decide) rfl rfl

end PymupdfApi
